import Mathlib

/-!
Verification of the batch-aware inventory allocation and sale settlement
subsystem of a point-of-sale application.

The definitions below are a shallow embedding of the TypeScript source:
- `src/src/pages/POS.tsx` (`loadBatches`, `addToCart`, `addBatchToCart`,
  `removeFromCart`, `calculateTotals`, `completeSale`),
- the batch reports page (`loadReports`, `getBatchStatus`),
- `src/src/components/LowStockBatchAlert.tsx` (`loadLowStockBatches`).

Conventions of the embedding:
- Monetary values use `ℚ` (prices, totals, tax amounts).
- Quantities use `ℤ` (the database columns are plain INTEGER with no
  non-negativity CHECK, so `remaining_quantity` can be driven negative).
- Dates: `expiry_date` is stored as a calendar-day index `d : ℤ`; parsing it
  with `new Date(...)` yields the timestamp `d * dayMs` (midnight of that
  day), while `new Date()` is an arbitrary millisecond timestamp `now : ℤ`.
- The persistence layer is a record `DB` of table contents; each supabase
  call is translated to the corresponding pure read or update of `DB`.
  Calls that can fail in the source (inserts/updates whose error object is
  inspected or logged) are driven by an explicit `FailureSpec`.
-/

namespace RetailSync

/-- One millisecond-count per day, used when parsing day-indexed dates. -/
def dayMs : ℤ := 86400000

/-- Row of the `products` table (the fields used by the POS subsystem). -/
structure Product where
  id : ℕ
  sku : String
  name : String
  selling_price : ℚ
  tax_rate : ℚ
  stock_quantity : ℤ
  min_batch_stock_level : Option ℤ
  is_active : Bool
deriving DecidableEq

/-- Row of the `product_batches` table. -/
structure Batch where
  id : ℕ
  product_id : ℕ
  batch_number : String
  expiry_date : ℤ
  quantity : ℤ
  remaining_quantity : ℤ
  purchase_price : ℚ
  is_active : Bool
deriving DecidableEq

/-- Timestamp of `new Date(batch.expiry_date)`: midnight of the expiry day. -/
def Batch.expiryTs (b : Batch) : ℤ := b.expiry_date * dayMs

/-- Row of the `sales` table (fields relevant to settlement). -/
structure Sale where
  id : ℕ
  invoice_number : ℕ
  subtotal : ℚ
  tax_amount : ℚ
  total_amount : ℚ
deriving DecidableEq

/-- Row of the `sale_items` table. -/
structure SaleItem where
  sale_id : ℕ
  product_id : ℕ
  product_name : String
  product_sku : String
  quantity : ℤ
  unit_price : ℚ
  tax_rate : ℚ
  tax_amount : ℚ
  total_amount : ℚ
  batch_id : Option ℕ
deriving DecidableEq

/-- A cart line. In the source `CartItem extends Product`, i.e. it carries a
frozen snapshot of the product row (including its `stock_quantity` as read
when the line was added) together with quantity, running totals and the
selected batch. -/
structure CartItem where
  product : Product
  quantity : ℤ
  itemTotal : ℚ
  itemTax : ℚ
  batch_id : Option ℕ
  batch_number : Option String
deriving DecidableEq

/-- The persistent store: contents of the four tables plus the fresh id the
store would assign to the next inserted sale. -/
structure DB where
  products : List Product
  batches : List Batch
  sales : List Sale
  saleItems : List SaleItem
  nextSaleId : ℕ
deriving DecidableEq

/-- Injected failure outcomes for the fallible persistence calls inside
`completeSale` (the source inspects `saleError` / `itemsError` and logs
`batchError` / `stockError`). -/
structure FailureSpec where
  saleInsertFails : Bool
  itemsInsertFails : Bool
  batchUpdateFails : ℕ → Bool
  stockUpdateFails : ℕ → Bool

/-- The failure-free run of the persistence layer. -/
def noFailures : FailureSpec :=
  { saleInsertFails := false
    itemsInsertFails := false
    batchUpdateFails := fun _ => false
    stockUpdateFails := fun _ => false }

/-- `loadBatches` (POS.tsx): select batches of the product with
`is_active = true AND remaining_quantity > 0`, ordered by `expiry_date`
ascending. -/
def loadBatches (db : DB) (productId : ℕ) : List Batch :=
  (db.batches.filter
      (fun b => b.product_id == productId && b.is_active && decide (0 < b.remaining_quantity))).mergeSort
    (fun a b => decide (a.expiry_date ≤ b.expiry_date))

/-- Outcome of `addToCart` (POS.tsx): the toast-and-return branches and the
two selection modes. -/
inductive AddToCartResult where
  | noBatches
  | allExpired
  | manualDialog (validBatches : List Batch)
  | autoSelected (batch : Batch)
deriving DecidableEq

/-- `addToCart` (POS.tsx): load the product's batches, drop the ones whose
parsed expiry timestamp is before `new Date()`, then either open the manual
selection dialog or auto-select the first (earliest-expiry) batch. -/
def addToCart (db : DB) (now : ℤ) (isFifoMode : Bool) (product : Product) :
    AddToCartResult :=
  let batches := loadBatches db product.id
  if batches.isEmpty then AddToCartResult.noBatches
  else
    match batches.filter (fun b => decide (now ≤ b.expiryTs)) with
    | [] => AddToCartResult.allExpired
    | b :: bs =>
      if !isFifoMode then AddToCartResult.manualDialog (b :: bs)
      else AddToCartResult.autoSelected b

/-- Outcome of `addBatchToCart` (POS.tsx). -/
inductive AddBatchResult where
  | insufficientStock
  | added (newCart : List CartItem)
deriving DecidableEq

/-- `addBatchToCart` (POS.tsx): add one unit of `selectedBatch` to the cart;
if the same (product, batch) line exists, refuse when its quantity already
reaches the batch's `remaining_quantity`, otherwise increment it. This is
purely a cart-state operation: it issues no persistence call. -/
def addBatchToCart (cart : List CartItem) (product : Product)
    (selectedBatch : Batch) : AddBatchResult :=
  match cart.find?
      (fun item => item.product.id == product.id &&
        item.batch_id == some selectedBatch.id) with
  | some existing =>
    if selectedBatch.remaining_quantity ≤ existing.quantity then
      AddBatchResult.insufficientStock
    else
      AddBatchResult.added (cart.map (fun item =>
        if item.product.id == product.id &&
            item.batch_id == some selectedBatch.id then
          { item with
            quantity := item.quantity + 1
            itemTotal := ((item.quantity + 1 : ℤ) : ℚ) * item.product.selling_price
            itemTax := ((item.quantity + 1 : ℤ) : ℚ) * item.product.selling_price
                * item.product.tax_rate / 100 }
        else item))
  | none =>
    AddBatchResult.added (cart ++
      [{ product := product
         quantity := 1
         itemTotal := product.selling_price
         itemTax := product.selling_price * product.tax_rate / 100
         batch_id := some selectedBatch.id
         batch_number := some selectedBatch.batch_number }])

/-- `removeFromCart` (POS.tsx):
`cart.filter((item) => !(item.id === productId && (!batchId || item.batch_id === batchId)))`. -/
def removeFromCart (cart : List CartItem) (productId : ℕ)
    (batchId : Option ℕ) : List CartItem :=
  cart.filter (fun item =>
    !(item.product.id == productId &&
      (batchId.isNone || item.batch_id == batchId)))

/-- The totals record returned by `calculateTotals` (POS.tsx). -/
structure Totals where
  subtotal : ℚ
  tax : ℚ
  total : ℚ
deriving DecidableEq

/-- `calculateTotals` (POS.tsx): reduce the cart's running `itemTotal` and
`itemTax` columns; `total = subtotal + tax`. -/
def calculateTotals (cart : List CartItem) : Totals :=
  let subtotal := cart.foldl (fun sum item => sum + item.itemTotal) 0
  let tax := cart.foldl (fun sum item => sum + item.itemTax) 0
  { subtotal := subtotal, tax := tax, total := subtotal + tax }

/-- Outcome of `completeSale` (POS.tsx): the early returns and the success
path. Batch/stock update errors are only logged in the source, so they have
no constructor here — they never change the returned outcome. -/
inductive SaleResult where
  | emptyCart
  | saleInsertError
  | itemsInsertError
  | success (sale : Sale)
deriving DecidableEq

/-- The sale row inserted by `completeSale` for a given cart and invoice
token (`INV-${Date.now()}` is abstracted to the numeric token). -/
def mkSale (db : DB) (cart : List CartItem) (invoiceToken : ℕ) : Sale :=
  { id := db.nextSaleId
    invoice_number := invoiceToken
    subtotal := (calculateTotals cart).subtotal
    tax_amount := (calculateTotals cart).tax
    total_amount := (calculateTotals cart).total }

/-- The sale-item rows inserted by `completeSale`: one snapshot row per cart
line, with `total_amount = itemTotal + itemTax`. -/
def mkSaleItems (saleId : ℕ) (cart : List CartItem) : List SaleItem :=
  cart.map (fun item =>
    { sale_id := saleId
      product_id := item.product.id
      product_name := item.product.name
      product_sku := item.product.sku
      quantity := item.quantity
      unit_price := item.product.selling_price
      tax_rate := item.product.tax_rate
      tax_amount := item.itemTax
      total_amount := item.itemTotal + item.itemTax
      batch_id := item.batch_id })

/-- First half of one iteration of the `for (const item of cart)` loop in
`completeSale`: if the line has a `batch_id`, re-read that batch's
`remaining_quantity` and write back `remaining_quantity - item.quantity`.
There is no oversell check, and an update error is only logged
(`console.error`) — execution continues with the store unchanged. -/
def applyBatchLine (fs : FailureSpec) (db : DB) (item : CartItem) : DB :=
  match item.batch_id with
  | none => db
  | some bid =>
    match db.batches.find? (fun b => b.id == bid) with
    | none => db
    | some batchData =>
      if fs.batchUpdateFails bid then db
      else
        { db with
          batches := db.batches.map (fun b =>
            if b.id == bid then
              { b with remaining_quantity :=
                  batchData.remaining_quantity - item.quantity }
            else b) }

/-- Second half of the loop iteration: write the product's `stock_quantity`
to `item.stock_quantity - item.quantity`, where `item.stock_quantity` is the
cart line's product SNAPSHOT, not a fresh read. An update error is only
logged, leaving the store unchanged. -/
def applyStockLine (fs : FailureSpec) (db : DB) (item : CartItem) : DB :=
  if fs.stockUpdateFails item.product.id then db
  else
    { db with
      products := db.products.map (fun p =>
        if p.id == item.product.id then
          { p with stock_quantity :=
              item.product.stock_quantity - item.quantity }
        else p) }

/-- One full iteration of the settlement loop: the batch decrement followed
by the product-stock write. -/
def applyLine (fs : FailureSpec) (db : DB) (item : CartItem) : DB :=
  applyStockLine fs (applyBatchLine fs db item) item

/-- `completeSale` (POS.tsx): guard the empty cart, insert the sale row
(early return on error), insert the sale-item rows (early return on error,
with the sale row already committed), then run the per-line inventory
decrement loop and report success. -/
def completeSale (fs : FailureSpec) (db : DB) (cart : List CartItem)
    (invoiceToken : ℕ) : DB × SaleResult :=
  if cart.isEmpty then (db, SaleResult.emptyCart)
  else if fs.saleInsertFails then (db, SaleResult.saleInsertError)
  else
    let sale := mkSale db cart invoiceToken
    let db1 := { db with sales := db.sales ++ [sale],
                         nextSaleId := db.nextSaleId + 1 }
    if fs.itemsInsertFails then (db1, SaleResult.itemsInsertError)
    else
      let db2 := { db1 with saleItems := db1.saleItems ++ mkSaleItems sale.id cart }
      (cart.foldl (applyLine fs) db2, SaleResult.success sale)

/-- `differenceInDays` of date-fns on millisecond timestamps: the number of
full days between the two instants, truncated toward zero (signed). -/
def differenceInDays (dateLeft dateRight : ℤ) : ℤ :=
  Int.tdiv (dateLeft - dateRight) dayMs

/-- `differenceInDays(new Date(expiryDay), now)` for a day-indexed expiry
date, as computed throughout the reports page. -/
def daysUntilExpiry (expiryDay now : ℤ) : ℤ :=
  differenceInDays (expiryDay * dayMs) now

/-- Predicate of the `expiringBatches` stat in `loadReports`:
`daysUntilExpiry > 0 && daysUntilExpiry <= 30`. -/
def isExpiringSoonStat (b : Batch) (now : ℤ) : Bool :=
  decide (0 < daysUntilExpiry b.expiry_date now) &&
    decide (daysUntilExpiry b.expiry_date now ≤ 30)

/-- Predicate of the `expiredBatches` stat in `loadReports`:
`daysUntilExpiry < 0`. -/
def isExpiredStat (b : Batch) (now : ℤ) : Bool :=
  decide (daysUntilExpiry b.expiry_date now < 0)

/-- The stats card values computed by `loadReports` (reports page). -/
structure ReportStats where
  totalBatches : ℕ
  expiringBatches : ℕ
  expiredBatches : ℕ
  totalInventoryValue : ℚ
deriving DecidableEq

/-- The joined active-batch rows fetched by `loadReports`: active batches
with an existing product row (`products!inner`). -/
def reportBatches (db : DB) : List Batch :=
  db.batches.filter (fun b =>
    b.is_active && db.products.any (fun p => p.id == b.product_id))

/-- `loadReports` (reports page): count the active batches whose
`differenceInDays(expiry, today)` lies strictly between 0 and 30 as
expiring, those with a negative difference as expired, and sum the
remaining-quantity-weighted purchase prices. -/
def loadReports (db : DB) (now : ℤ) : ReportStats :=
  let formatted := reportBatches db
  { totalBatches := formatted.length
    expiringBatches := (formatted.filter (fun b => isExpiringSoonStat b now)).length
    expiredBatches := (formatted.filter (fun b => isExpiredStat b now)).length
    totalInventoryValue :=
      (formatted.map (fun b => (b.remaining_quantity : ℚ) * b.purchase_price)).sum }

/-- Status label assigned by `getBatchStatus` (reports page). -/
inductive BatchStatus where
  | expired
  | expiringSoon
  | activeLabel
deriving DecidableEq

/-- `getBatchStatus` (reports page): `Expired` when the day difference is
negative, `Expiring Soon` when it is at most 30, `Active` otherwise. -/
def getBatchStatus (expiryDay now : ℤ) : BatchStatus :=
  let d := daysUntilExpiry expiryDay now
  if d < 0 then BatchStatus.expired
  else if d ≤ 30 then BatchStatus.expiringSoon
  else BatchStatus.activeLabel

/-- JavaScript `x || d` on a nullable numeric column: both `null` and `0`
are falsy, so either yields the default. -/
def jsOrDefault (v : Option ℤ) (d : ℤ) : ℤ :=
  match v with
  | none => d
  | some n => if n = 0 then d else n

/-- A row of the low-stock alert list (LowStockBatchAlert.tsx). -/
structure LowStockRow where
  batch_id : ℕ
  batch_number : String
  product_id : ℕ
  product_name : String
  remaining_quantity : ℤ
  min_batch_stock_level : ℤ
deriving DecidableEq

/-- `loadLowStockBatches` (LowStockBatchAlert.tsx): select active batches
with `remaining_quantity > 0` joined to their product (`products!inner`),
then keep those with
`remaining_quantity <= (products.min_batch_stock_level || 5)`. -/
def loadLowStockBatches (db : DB) : List LowStockRow :=
  (db.batches.filter (fun b => b.is_active && decide (0 < b.remaining_quantity))).filterMap
    (fun b =>
      match db.products.find? (fun p => p.id == b.product_id) with
      | none => none
      | some p =>
        if b.remaining_quantity ≤ jsOrDefault p.min_batch_stock_level 5 then
          some { batch_id := b.id
                 batch_number := b.batch_number
                 product_id := p.id
                 product_name := p.name
                 remaining_quantity := b.remaining_quantity
                 min_batch_stock_level := jsOrDefault p.min_batch_stock_level 5 }
        else none)

/-- The spec's effective low-stock threshold: the column value when set,
5 only when it is unset (null). Stated from the spec's words for comparison
with the source's `jsOrDefault` behavior. -/
def specEffectiveThreshold (v : Option ℤ) : ℤ :=
  match v with
  | none => 5
  | some n => n

/-- State-threaded version of `loadBatches`: the only persistence call in
the source is a select, so the store is handed back unchanged. -/
def loadBatchesS (db : DB) (productId : ℕ) : DB × List Batch :=
  (db, loadBatches db productId)

/-- State-threaded version of `addToCart`: its single persistence call is
the select inside `loadBatches`; no insert or update is issued, so the
store component is the input store. -/
def addToCartS (db : DB) (now : ℤ) (isFifoMode : Bool) (product : Product) :
    DB × AddToCartResult :=
  let (db1, _) := loadBatchesS db product.id
  (db1, addToCart db now isFifoMode product)

/-- Eligibility of a batch for sale of a product at instant `now`: stored,
owned by the product, active, in stock, and its parsed expiry timestamp not
before `now` (the filters applied by `loadBatches` plus the expiry filter in
`addToCart`). -/
def eligibleBatch (db : DB) (now : ℤ) (productId : ℕ) (b : Batch) : Prop :=
  b ∈ db.batches ∧ b.product_id = productId ∧ b.is_active = true ∧
    0 < b.remaining_quantity ∧ now ≤ b.expiryTs

/-- Sum of `remaining_quantity` over the stored active batches of a product. -/
def activeBatchSum (db : DB) (productId : ℕ) : ℤ :=
  ((db.batches.filter (fun b => b.product_id == productId && b.is_active)).map
    Batch.remaining_quantity).sum

/-- The aggregate-stock invariant for one product id: every stored product
row with that id carries `stock_quantity` equal to the sum of its active
batches' `remaining_quantity`. -/
def stockBatchInvariant (db : DB) (productId : ℕ) : Prop :=
  ∀ p ∈ db.products, p.id = productId →
    p.stock_quantity = activeBatchSum db productId

/-- A cart line whose running totals agree with its quantity and snapshot:
`itemTotal = quantity × price` and `itemTax = itemTotal × taxRate / 100`.
Every line built by `addBatchToCart` satisfies this. -/
def wellFormedLine (item : CartItem) : Prop :=
  item.itemTotal = (item.quantity : ℚ) * item.product.selling_price ∧
    item.itemTax = item.itemTotal * item.product.tax_rate / 100

/-- Total quantity the settlement loop subtracts from the batch with id
`bid`: the sum of the quantities of the cart lines referencing it, except
that a failing batch update contributes nothing. -/
def batchDec (fs : FailureSpec) (cart : List CartItem) (bid : ℕ) : ℤ :=
  (cart.map (fun item =>
    if item.batch_id == some bid && !(fs.batchUpdateFails bid) then
      item.quantity
    else 0)).sum

/-- The last value the settlement loop writes to the `stock_quantity` of the
product with id `pid` (later cart lines overwrite earlier ones), if any
non-failing write happens at all. -/
def stockWrite (fs : FailureSpec) : List CartItem → ℕ → Option ℤ
  | [], _ => none
  | item :: rest, pid =>
    match stockWrite fs rest pid with
    | some v => some v
    | none =>
      if item.product.id == pid && !(fs.stockUpdateFails item.product.id) then
        some (item.product.stock_quantity - item.quantity)
      else none



theorem applyBatchLine_products (fs : FailureSpec) (db : DB) (item : CartItem) :
    (applyBatchLine fs db item).products = db.products := by
  unfold applyBatchLine
  split
  · rfl
  · split
    · rfl
    · split <;> rfl

theorem applyBatchLine_sales (fs : FailureSpec) (db : DB) (item : CartItem) :
    (applyBatchLine fs db item).sales = db.sales := by
  unfold applyBatchLine
  split
  · rfl
  · split
    · rfl
    · split <;> rfl

theorem applyBatchLine_saleItems (fs : FailureSpec) (db : DB) (item : CartItem) :
    (applyBatchLine fs db item).saleItems = db.saleItems := by
  unfold applyBatchLine
  split
  · rfl
  · split
    · rfl
    · split <;> rfl

theorem applyBatchLine_nextSaleId (fs : FailureSpec) (db : DB) (item : CartItem) :
    (applyBatchLine fs db item).nextSaleId = db.nextSaleId := by
  unfold applyBatchLine
  split
  · rfl
  · split
    · rfl
    · split <;> rfl

theorem applyStockLine_batches (fs : FailureSpec) (db : DB) (item : CartItem) :
    (applyStockLine fs db item).batches = db.batches := by
  unfold applyStockLine
  split <;> rfl

theorem applyStockLine_sales (fs : FailureSpec) (db : DB) (item : CartItem) :
    (applyStockLine fs db item).sales = db.sales := by
  unfold applyStockLine
  split <;> rfl

theorem applyStockLine_saleItems (fs : FailureSpec) (db : DB) (item : CartItem) :
    (applyStockLine fs db item).saleItems = db.saleItems := by
  unfold applyStockLine
  split <;> rfl

theorem applyStockLine_nextSaleId (fs : FailureSpec) (db : DB) (item : CartItem) :
    (applyStockLine fs db item).nextSaleId = db.nextSaleId := by
  unfold applyStockLine
  split <;> rfl

theorem applyBatchLine_batches (fs : FailureSpec) (db : DB) (item : CartItem)
    (hnodup : (db.batches.map Batch.id).Nodup) :
    (applyBatchLine fs db item).batches = db.batches.map (fun b =>
      if item.batch_id == some b.id && !(fs.batchUpdateFails b.id) then
        { b with remaining_quantity := b.remaining_quantity - item.quantity }
      else b) := by
  unfold applyBatchLine
  split
  · next heq => simp [heq]
  · next bid heq =>
    split
    · next hfind =>
      have hnone := List.find?_eq_none.mp hfind
      symm
      rw [heq]
      apply (List.map_congr_left ?_).trans (List.map_id _)
      intro b hb
      have hne2 : ¬ bid = b.id := fun h => (hnone b hb) (by simp [h])
      simp [hne2]
    · next batchData hfind =>
      have hmem := List.mem_of_find?_eq_some hfind
      have hid : batchData.id = bid := by simpa using List.find?_some hfind
      rw [heq]
      by_cases hfail : fs.batchUpdateFails bid
      · rw [if_pos hfail]
        symm
        apply (List.map_congr_left ?_).trans (List.map_id _)
        intro b hb
        by_cases h : bid = b.id
        · simp [← h, hfail]
        · simp [h]
      · rw [if_neg hfail]
        show db.batches.map _ = _
        apply List.map_congr_left
        intro b hb
        by_cases h : b.id = bid
        · have hbb : b = batchData :=
            List.inj_on_of_nodup_map hnodup hb hmem (by rw [h, hid])
          have hfail2 : fs.batchUpdateFails b.id = false := by
            rw [h]; exact Bool.not_eq_true _ |>.mp hfail
          subst hbb
          have hfail3 : fs.batchUpdateFails bid = false := Bool.not_eq_true _ |>.mp hfail
          simp [hid, hfail3]
        · have hne2 : ¬ bid = b.id := fun hh => h hh.symm
          simp [h, hne2]

theorem applyStockLine_products (fs : FailureSpec) (db : DB) (item : CartItem) :
    (applyStockLine fs db item).products = db.products.map (fun p =>
      if p.id == item.product.id && !(fs.stockUpdateFails item.product.id) then
        { p with stock_quantity := item.product.stock_quantity - item.quantity }
      else p) := by
  unfold applyStockLine
  by_cases hfail : fs.stockUpdateFails item.product.id
  · rw [if_pos hfail]
    symm
    apply (List.map_congr_left ?_).trans (List.map_id _)
    intro p hp
    simp [hfail]
  · rw [if_neg hfail]
    show db.products.map _ = _
    apply List.map_congr_left
    intro p hp
    have hfail2 : fs.stockUpdateFails item.product.id = false :=
      Bool.not_eq_true _ |>.mp hfail
    by_cases h : p.id = item.product.id <;> simp [h, hfail2]



theorem applyLine_batches (fs : FailureSpec) (db : DB) (item : CartItem)
    (hnodup : (db.batches.map Batch.id).Nodup) :
    (applyLine fs db item).batches = db.batches.map (fun b =>
      if item.batch_id == some b.id && !(fs.batchUpdateFails b.id) then
        { b with remaining_quantity := b.remaining_quantity - item.quantity }
      else b) := by
  rw [applyLine, applyStockLine_batches, applyBatchLine_batches fs db item hnodup]

theorem applyLine_products (fs : FailureSpec) (db : DB) (item : CartItem) :
    (applyLine fs db item).products = db.products.map (fun p =>
      if p.id == item.product.id && !(fs.stockUpdateFails item.product.id) then
        { p with stock_quantity := item.product.stock_quantity - item.quantity }
      else p) := by
  rw [applyLine, applyStockLine_products, applyBatchLine_products]

theorem applyLine_sales (fs : FailureSpec) (db : DB) (item : CartItem) :
    (applyLine fs db item).sales = db.sales := by
  rw [applyLine, applyStockLine_sales, applyBatchLine_sales]

theorem applyLine_saleItems (fs : FailureSpec) (db : DB) (item : CartItem) :
    (applyLine fs db item).saleItems = db.saleItems := by
  rw [applyLine, applyStockLine_saleItems, applyBatchLine_saleItems]

theorem applyLine_nextSaleId (fs : FailureSpec) (db : DB) (item : CartItem) :
    (applyLine fs db item).nextSaleId = db.nextSaleId := by
  rw [applyLine, applyStockLine_nextSaleId, applyBatchLine_nextSaleId]

theorem applyLine_ids (fs : FailureSpec) (db : DB) (item : CartItem)
    (hnodup : (db.batches.map Batch.id).Nodup) :
    (applyLine fs db item).batches.map Batch.id = db.batches.map Batch.id := by
  rw [applyLine_batches fs db item hnodup, List.map_map]
  apply List.map_congr_left
  intro b hb
  by_cases hc : (item.batch_id == some b.id && !(fs.batchUpdateFails b.id)) = true <;>
    simp [Function.comp, hc]

theorem batchDec_nil (fs : FailureSpec) (bid : ℕ) : batchDec fs [] bid = 0 := rfl

theorem batchDec_cons (fs : FailureSpec) (item : CartItem) (rest : List CartItem) (bid : ℕ) :
    batchDec fs (item :: rest) bid =
      (if item.batch_id == some bid && !(fs.batchUpdateFails bid) then item.quantity else 0)
        + batchDec fs rest bid := by
  simp [batchDec]

theorem foldl_applyLine_batches (fs : FailureSpec) :
    ∀ (cart : List CartItem) (db : DB), (db.batches.map Batch.id).Nodup →
      (cart.foldl (applyLine fs) db).batches = db.batches.map (fun b =>
        { b with remaining_quantity := b.remaining_quantity - batchDec fs cart b.id })
  | [], db, h => by
    simp [batchDec]
  | item :: rest, db, h => by
    rw [List.foldl_cons]
    have h2 : ((applyLine fs db item).batches.map Batch.id).Nodup := by
      rw [applyLine_ids fs db item h]; exact h
    rw [foldl_applyLine_batches fs rest _ h2, applyLine_batches fs db item h, List.map_map]
    apply List.map_congr_left
    intro b hb
    by_cases hc : (item.batch_id == some b.id && !(fs.batchUpdateFails b.id)) = true
    · simp only [Function.comp, hc, if_pos, batchDec_cons]
      simp [sub_sub]
    · simp only [Function.comp, hc, if_neg, Bool.not_eq_true, batchDec_cons]
      simp [hc]

theorem foldl_applyLine_products (fs : FailureSpec) :
    ∀ (cart : List CartItem) (db : DB),
      (cart.foldl (applyLine fs) db).products = db.products.map (fun p =>
        match stockWrite fs cart p.id with
        | some v => { p with stock_quantity := v }
        | none => p)
  | [], db => by
    simp [stockWrite]
  | item :: rest, db => by
    rw [List.foldl_cons, foldl_applyLine_products fs rest _, applyLine_products, List.map_map]
    apply List.map_congr_left
    intro p hp
    by_cases hc : (p.id == item.product.id && !(fs.stockUpdateFails item.product.id)) = true
    · cases hsw : stockWrite fs rest p.id with
      | some v => simp [Function.comp, hc, stockWrite, hsw]
      | none =>
        have heq : p.id = item.product.id := by
          have := hc
          simp only [Bool.and_eq_true, beq_iff_eq] at this
          exact this.1
        have hnf : fs.stockUpdateFails item.product.id = false := by
          have := hc
          simp only [Bool.and_eq_true, Bool.not_eq_true'] at this
          exact this.2
        have hsw2 : stockWrite fs rest item.product.id = none := by
          rw [← heq]; exact hsw
        simp [Function.comp, hc, stockWrite, hsw, hsw2, heq, hnf]
    · cases hsw : stockWrite fs rest p.id with
      | some v => simp [Function.comp, hc, stockWrite, hsw]
      | none =>
        have : ¬ (item.product.id == p.id && !(fs.stockUpdateFails item.product.id)) = true := by
          intro hcon
          apply hc
          simp only [Bool.and_eq_true, beq_iff_eq] at hcon ⊢
          exact ⟨hcon.1.symm, hcon.2⟩
        simp [Function.comp, hc, stockWrite, hsw, this]

theorem foldl_applyLine_sales (fs : FailureSpec) :
    ∀ (cart : List CartItem) (db : DB), (cart.foldl (applyLine fs) db).sales = db.sales
  | [], db => rfl
  | item :: rest, db => by
    rw [List.foldl_cons, foldl_applyLine_sales fs rest _, applyLine_sales]

theorem foldl_applyLine_saleItems (fs : FailureSpec) :
    ∀ (cart : List CartItem) (db : DB), (cart.foldl (applyLine fs) db).saleItems = db.saleItems
  | [], db => rfl
  | item :: rest, db => by
    rw [List.foldl_cons, foldl_applyLine_saleItems fs rest _, applyLine_saleItems]



theorem foldl_add_eq_sum (f : CartItem → ℚ) (l : List CartItem) (a : ℚ) :
    l.foldl (fun sum item => sum + f item) a = a + (l.map f).sum := by
  induction l generalizing a with
  | nil => simp
  | cons x xs ih => simp [ih, add_assoc]

theorem mkSale_id (db : DB) (cart : List CartItem) (token : ℕ) :
    (mkSale db cart token).id = db.nextSaleId := rfl

theorem completeSale_emptyCart (fs : FailureSpec) (db : DB) (token : ℕ) :
    completeSale fs db [] token = (db, SaleResult.emptyCart) := rfl

theorem completeSale_saleInsertFail (fs : FailureSpec) (db : DB)
    (cart : List CartItem) (token : ℕ) (h1 : cart ≠ [])
    (h2 : fs.saleInsertFails = true) :
    completeSale fs db cart token = (db, SaleResult.saleInsertError) := by
  simp [completeSale, List.isEmpty_eq_false.mpr h1, h2]

theorem completeSale_itemsFail (fs : FailureSpec) (db : DB)
    (cart : List CartItem) (token : ℕ) (h1 : cart ≠ [])
    (h2 : fs.saleInsertFails = false) (h3 : fs.itemsInsertFails = true) :
    completeSale fs db cart token =
      ({ db with sales := db.sales ++ [mkSale db cart token],
                 nextSaleId := db.nextSaleId + 1 },
       SaleResult.itemsInsertError) := by
  simp [completeSale, List.isEmpty_eq_false.mpr h1, h2, h3]

theorem completeSale_success_eq (fs : FailureSpec) (db : DB)
    (cart : List CartItem) (token : ℕ) (h1 : cart ≠ [])
    (h2 : fs.saleInsertFails = false) (h3 : fs.itemsInsertFails = false) :
    completeSale fs db cart token =
      (cart.foldl (applyLine fs)
        { db with sales := db.sales ++ [mkSale db cart token],
                  saleItems := db.saleItems ++ mkSaleItems db.nextSaleId cart,
                  nextSaleId := db.nextSaleId + 1 },
       SaleResult.success (mkSale db cart token)) := by
  simp [completeSale, List.isEmpty_eq_false.mpr h1, h2, h3, mkSale_id]

theorem calculateTotals_subtotal (cart : List CartItem) :
    (calculateTotals cart).subtotal = (cart.map CartItem.itemTotal).sum := by
  simp [calculateTotals, foldl_add_eq_sum CartItem.itemTotal cart 0]

theorem calculateTotals_tax (cart : List CartItem) :
    (calculateTotals cart).tax = (cart.map CartItem.itemTax).sum := by
  simp [calculateTotals, foldl_add_eq_sum CartItem.itemTax cart 0]

theorem calculateTotals_total (cart : List CartItem) :
    (calculateTotals cart).total =
      (calculateTotals cart).subtotal + (calculateTotals cart).tax := rfl



def oversoldProduct : Product :=
  { id := 1, sku := "SKU1", name := "Paracetamol", selling_price := 10,
    tax_rate := 0, stock_quantity := 1, min_batch_stock_level := none,
    is_active := true }

def oversoldBatch : Batch :=
  { id := 1, product_id := 1, batch_number := "BN1", expiry_date := 100,
    quantity := 1, remaining_quantity := 1, purchase_price := 1,
    is_active := true }

def oversoldCart : List CartItem :=
  [{ product := oversoldProduct, quantity := 2, itemTotal := 20, itemTax := 0,
     batch_id := some 1, batch_number := some "BN1" }]

def oversoldDB : DB :=
  { products := [oversoldProduct], batches := [oversoldBatch], sales := [],
    saleItems := [], nextSaleId := 0 }

/-- Claim C1, counterexample: with a batch holding `remaining_quantity = 1`
and a cart line of quantity 2 against it (the selection-time check saw a
larger stock), `completeSale` succeeds — it never fails a line with
`BatchOversold` — and drives the batch's `remaining_quantity` to `-1`. -/
theorem C1_counterexample :
    (completeSale noFailures oversoldDB oversoldCart 7).2 =
      SaleResult.success (mkSale oversoldDB oversoldCart 7) ∧
    ((completeSale noFailures oversoldDB oversoldCart 7).1.batches.map
      Batch.remaining_quantity) = [-1] :=
  ⟨rfl, by decide⟩

/-- Claim C1 (amended): `completeSale` performs no commit-time re-validation
and has no `BatchOversold` failure: on a failure-free run with a non-empty
cart it always reports success, each stored batch's `remaining_quantity` is
decremented by the total quantity of the cart lines referencing it with no
non-negativity check, and `remaining_quantity` stays non-negative only under
the extra assumption that at commit time every batch's decrement is at most
its current `remaining_quantity`. -/
theorem C1_amended_no_commit_validation (db : DB) (cart : List CartItem)
    (token : ℕ) (hcart : cart ≠ [])
    (hnodup : (db.batches.map Batch.id).Nodup) :
    (completeSale noFailures db cart token).2 =
      SaleResult.success (mkSale db cart token) ∧
    (completeSale noFailures db cart token).1.batches =
      db.batches.map (fun b =>
        { b with remaining_quantity :=
            b.remaining_quantity - batchDec noFailures cart b.id }) ∧
    ((∀ b ∈ db.batches, 0 ≤ b.remaining_quantity ∧
        batchDec noFailures cart b.id ≤ b.remaining_quantity) →
      ∀ b ∈ (completeSale noFailures db cart token).1.batches,
        0 ≤ b.remaining_quantity) := by
  have hs := completeSale_success_eq noFailures db cart token hcart rfl rfl
  have hbatches : (completeSale noFailures db cart token).1.batches =
      db.batches.map (fun b =>
        { b with remaining_quantity :=
            b.remaining_quantity - batchDec noFailures cart b.id }) := by
    rw [hs]
    exact foldl_applyLine_batches noFailures cart _ hnodup
  refine ⟨by rw [hs], hbatches, ?_⟩
  intro hsafe b hb
  rw [hbatches] at hb
  rcases List.mem_map.mp hb with ⟨b0, hb0, rfl⟩
  have := hsafe b0 hb0
  simp only []
  omega

def w1Batch : Batch :=
  { id := 1, product_id := 1, batch_number := "BN1", expiry_date := 100,
    quantity := 5, remaining_quantity := 5, purchase_price := 1,
    is_active := true }

def w1Cart : List CartItem :=
  [{ product := oversoldProduct, quantity := 2, itemTotal := 20, itemTax := 0,
     batch_id := some 1, batch_number := some "BN1" }]

def w1DB : DB :=
  { products := [oversoldProduct], batches := [w1Batch], sales := [],
    saleItems := [], nextSaleId := 0 }

/-- Claim C1 (amended), witness at a concrete store and cart. -/
theorem C1_amended_witness :
    (w1Cart ≠ [] ∧ (w1DB.batches.map Batch.id).Nodup) ∧
    ((completeSale noFailures w1DB w1Cart 3).2 =
      SaleResult.success (mkSale w1DB w1Cart 3) ∧
    (completeSale noFailures w1DB w1Cart 3).1.batches =
      w1DB.batches.map (fun b =>
        { b with remaining_quantity :=
            b.remaining_quantity - batchDec noFailures w1Cart b.id }) ∧
    ((∀ b ∈ w1DB.batches, 0 ≤ b.remaining_quantity ∧
        batchDec noFailures w1Cart b.id ≤ b.remaining_quantity) →
      ∀ b ∈ (completeSale noFailures w1DB w1Cart 3).1.batches,
        0 ≤ b.remaining_quantity)) :=
  ⟨⟨List.cons_ne_nil _ _, by decide⟩,
   C1_amended_no_commit_validation w1DB w1Cart 3 (List.cons_ne_nil _ _) (by decide)⟩

def failItemsSpec : FailureSpec :=
  { saleInsertFails := false, itemsInsertFails := true,
    batchUpdateFails := fun _ => false, stockUpdateFails := fun _ => false }

/-- Claim C3, counterexample: when the SaleItem insert fails, `completeSale`
returns the error but the Sale row has already been committed and stays in
the store with no items and no inventory decrement — partial state remains,
so the operation is not atomic. -/
theorem C3_counterexample :
    (completeSale failItemsSpec oversoldDB oversoldCart 7).2 =
      SaleResult.itemsInsertError ∧
    (completeSale failItemsSpec oversoldDB oversoldCart 7).1.sales =
      [mkSale oversoldDB oversoldCart 7] ∧
    (completeSale failItemsSpec oversoldDB oversoldCart 7).1.saleItems = [] ∧
    ((completeSale failItemsSpec oversoldDB oversoldCart 7).1.batches.map
      Batch.remaining_quantity) = [1] :=
  ⟨rfl, rfl, rfl, by decide⟩

/-- Claim C3 (amended): `completeSale` is not atomic. A Sale-insert failure
leaves the store unchanged and is returned; a SaleItem-insert failure is
returned to the caller but leaves the already-inserted Sale row behind;
batch and product decrement failures are only logged and swallowed — the
sale still reports success, with a failing batch's decrement simply not
applied (its contribution to `batchDec` is zero). -/
theorem C3_amended_failure_semantics (fs : FailureSpec) (db : DB)
    (cart : List CartItem) (token : ℕ) (hcart : cart ≠ [])
    (hnodup : (db.batches.map Batch.id).Nodup) :
    (fs.saleInsertFails = true →
      completeSale fs db cart token = (db, SaleResult.saleInsertError)) ∧
    (fs.saleInsertFails = false → fs.itemsInsertFails = true →
      completeSale fs db cart token =
        ({ db with sales := db.sales ++ [mkSale db cart token],
                   nextSaleId := db.nextSaleId + 1 },
         SaleResult.itemsInsertError)) ∧
    (fs.saleInsertFails = false → fs.itemsInsertFails = false →
      (completeSale fs db cart token).2 =
        SaleResult.success (mkSale db cart token) ∧
      (completeSale fs db cart token).1.batches = db.batches.map (fun b =>
        { b with remaining_quantity :=
            b.remaining_quantity - batchDec fs cart b.id })) := by
  refine ⟨fun h2 => completeSale_saleInsertFail fs db cart token hcart h2,
          fun h2 h3 => completeSale_itemsFail fs db cart token hcart h2 h3,
          fun h2 h3 => ?_⟩
  have hs := completeSale_success_eq fs db cart token hcart h2 h3
  exact ⟨by rw [hs], by rw [hs]; exact foldl_applyLine_batches fs cart _ hnodup⟩

/-- Claim C3 (amended), witness at a concrete store, cart and failure
pattern. -/
theorem C3_amended_witness :
    (oversoldCart ≠ [] ∧ (oversoldDB.batches.map Batch.id).Nodup) ∧
    ((failItemsSpec.saleInsertFails = true →
      completeSale failItemsSpec oversoldDB oversoldCart 7 =
        (oversoldDB, SaleResult.saleInsertError)) ∧
    (failItemsSpec.saleInsertFails = false →
      failItemsSpec.itemsInsertFails = true →
      completeSale failItemsSpec oversoldDB oversoldCart 7 =
        ({ oversoldDB with
             sales := oversoldDB.sales ++ [mkSale oversoldDB oversoldCart 7],
             nextSaleId := oversoldDB.nextSaleId + 1 },
         SaleResult.itemsInsertError)) ∧
    (failItemsSpec.saleInsertFails = false →
      failItemsSpec.itemsInsertFails = false →
      (completeSale failItemsSpec oversoldDB oversoldCart 7).2 =
        SaleResult.success (mkSale oversoldDB oversoldCart 7) ∧
      (completeSale failItemsSpec oversoldDB oversoldCart 7).1.batches =
        oversoldDB.batches.map (fun b =>
          { b with remaining_quantity :=
              b.remaining_quantity - batchDec failItemsSpec oversoldCart b.id }))) :=
  ⟨⟨List.cons_ne_nil _ _, by decide⟩,
   C3_amended_failure_semantics failItemsSpec oversoldDB oversoldCart 7
     (List.cons_ne_nil _ _) (by decide)⟩

/-- Claim C8: batch allocation is side-effect free — listing a product's
eligible batches and running the add-to-cart selection (either mode) hand
the store back exactly as given: no batch's `remaining_quantity` and no
product's `stock_quantity` is written at selection time. -/
theorem C8_selection_is_read_only (db : DB) (now : ℤ) (mode : Bool)
    (p : Product) (productId : ℕ) :
    (loadBatchesS db productId).1 = db ∧
    (addToCartS db now mode p).1 = db ∧
    (addToCartS db now mode p).1.batches = db.batches ∧
    (addToCartS db now mode p).1.products = db.products :=
  ⟨rfl, rfl, rfl, rfl⟩

/-- Claim C10 (implicit): `removeFromCart` called without a `batchId` — as
the cart's per-line remove button does — removes every cart line whose
product id matches, across all batches of that product, while keeping every
line of other products. -/
theorem C10_remove_without_batch_removes_all_lines
    (cart : List CartItem) (clicked other : CartItem)
    (hmem : other ∈ cart) (hpid : other.product.id = clicked.product.id) :
    other ∉ removeFromCart cart clicked.product.id none ∧
    ∀ item ∈ cart, item.product.id ≠ clicked.product.id →
      item ∈ removeFromCart cart clicked.product.id none := by
  constructor
  · intro hin
    have hcond := (List.mem_filter.mp hin).2
    simp [hpid] at hcond
  · intro item hitem hne
    refine List.mem_filter.mpr ⟨hitem, ?_⟩
    simp [hne]

def wProdC10 : Product :=
  { id := 1, sku := "SKU1", name := "Syrup", selling_price := 5,
    tax_rate := 0, stock_quantity := 9, min_batch_stock_level := none,
    is_active := true }

def wLineA : CartItem :=
  { product := wProdC10, quantity := 1, itemTotal := 5, itemTax := 0,
    batch_id := some 1, batch_number := some "BA" }

def wLineB : CartItem :=
  { product := wProdC10, quantity := 1, itemTotal := 5, itemTax := 0,
    batch_id := some 2, batch_number := some "BB" }

/-- Claim C10, witness: a cart holding the same product from two different
batches; clicking remove on the first line also removes the second. -/
theorem C10_witness :
    (wLineB ∈ [wLineA, wLineB] ∧ wLineB.product.id = wLineA.product.id) ∧
    (wLineB ∉ removeFromCart [wLineA, wLineB] wLineA.product.id none ∧
    ∀ item ∈ [wLineA, wLineB], item.product.id ≠ wLineA.product.id →
      item ∈ removeFromCart [wLineA, wLineB] wLineA.product.id none) :=
  ⟨⟨List.mem_cons_of_mem _ (List.mem_cons_self _ _), rfl⟩,
   C10_remove_without_batch_removes_all_lines [wLineA, wLineB] wLineA wLineB
     (List.mem_cons_of_mem _ (List.mem_cons_self _ _)) rfl⟩



/-- Claim C6: for every non-empty well-formed cart (each line's running
totals agree with its quantity, snapshot price and tax rate, as
`addBatchToCart` maintains), a non-failing `completeSale` persists a Sale
whose subtotal is the sum over lines of quantity × unitPrice, whose tax is
the sum over lines of lineTotal × taxRate / 100, and whose total is
subtotal + tax; the persisted SaleItems' `total_amount` values sum to the
parent Sale's total. -/
theorem C6_sale_totals (fs : FailureSpec) (db : DB) (cart : List CartItem)
    (token : ℕ) (hcart : cart ≠ [])
    (h2 : fs.saleInsertFails = false) (h3 : fs.itemsInsertFails = false)
    (hwf : ∀ item ∈ cart, wellFormedLine item) :
    (completeSale fs db cart token).2 =
      SaleResult.success (mkSale db cart token) ∧
    (mkSale db cart token).subtotal =
      (cart.map (fun item =>
        (item.quantity : ℚ) * item.product.selling_price)).sum ∧
    (mkSale db cart token).tax_amount =
      (cart.map (fun item =>
        (item.quantity : ℚ) * item.product.selling_price
          * item.product.tax_rate / 100)).sum ∧
    (mkSale db cart token).total_amount =
      (mkSale db cart token).subtotal + (mkSale db cart token).tax_amount ∧
    (completeSale fs db cart token).1.sales =
      db.sales ++ [mkSale db cart token] ∧
    (completeSale fs db cart token).1.saleItems =
      db.saleItems ++ mkSaleItems db.nextSaleId cart ∧
    ((mkSaleItems db.nextSaleId cart).map SaleItem.total_amount).sum =
      (mkSale db cart token).total_amount := by
  have hs := completeSale_success_eq fs db cart token hcart h2 h3
  have hsub : (mkSale db cart token).subtotal =
      (cart.map (fun item =>
        (item.quantity : ℚ) * item.product.selling_price)).sum := by
    show (calculateTotals cart).subtotal = _
    rw [calculateTotals_subtotal]
    congr 1
    apply List.map_congr_left
    intro item h
    exact (hwf item h).1
  have htax : (mkSale db cart token).tax_amount =
      (cart.map (fun item =>
        (item.quantity : ℚ) * item.product.selling_price
          * item.product.tax_rate / 100)).sum := by
    show (calculateTotals cart).tax = _
    rw [calculateTotals_tax]
    congr 1
    apply List.map_congr_left
    intro item h
    rw [(hwf item h).2, (hwf item h).1]
  refine ⟨by rw [hs], hsub, htax, rfl, ?_, ?_, ?_⟩
  · rw [hs, foldl_applyLine_sales]
  · rw [hs, foldl_applyLine_saleItems]
  · have hmap : (mkSaleItems db.nextSaleId cart).map SaleItem.total_amount =
        cart.map (fun item => item.itemTotal + item.itemTax) := by
      rw [mkSaleItems, List.map_map]
      rfl
    rw [hmap, List.sum_map_add]
    show _ = (calculateTotals cart).total
    rw [calculateTotals_total, calculateTotals_subtotal, calculateTotals_tax]

def wProd61 : Product :=
  { id := 1, sku := "SKU1", name := "Tablet", selling_price := 10,
    tax_rate := 5, stock_quantity := 9, min_batch_stock_level := none,
    is_active := true }

def wProd62 : Product :=
  { id := 2, sku := "SKU2", name := "Gauze", selling_price := 3,
    tax_rate := 0, stock_quantity := 4, min_batch_stock_level := none,
    is_active := true }

def wLine61 : CartItem :=
  { product := wProd61, quantity := 2, itemTotal := 20, itemTax := 1,
    batch_id := some 1, batch_number := some "BA" }

def wLine62 : CartItem :=
  { product := wProd62, quantity := 1, itemTotal := 3, itemTax := 0,
    batch_id := some 2, batch_number := some "BB" }

def w6DB : DB :=
  { products := [wProd61, wProd62],
    batches := [], sales := [], saleItems := [], nextSaleId := 0 }

/-- Claim C6, witness: a concrete two-line cart. -/
theorem C6_witness :
    ([wLine61, wLine62] ≠ ([] : List CartItem) ∧
     noFailures.saleInsertFails = false ∧
     noFailures.itemsInsertFails = false ∧
     (∀ item ∈ [wLine61, wLine62], wellFormedLine item)) ∧
    ((completeSale noFailures w6DB [wLine61, wLine62] 9).2 =
      SaleResult.success (mkSale w6DB [wLine61, wLine62] 9) ∧
    (mkSale w6DB [wLine61, wLine62] 9).subtotal =
      ([wLine61, wLine62].map (fun item =>
        (item.quantity : ℚ) * item.product.selling_price)).sum ∧
    (mkSale w6DB [wLine61, wLine62] 9).tax_amount =
      ([wLine61, wLine62].map (fun item =>
        (item.quantity : ℚ) * item.product.selling_price
          * item.product.tax_rate / 100)).sum ∧
    (mkSale w6DB [wLine61, wLine62] 9).total_amount =
      (mkSale w6DB [wLine61, wLine62] 9).subtotal +
        (mkSale w6DB [wLine61, wLine62] 9).tax_amount ∧
    (completeSale noFailures w6DB [wLine61, wLine62] 9).1.sales =
      w6DB.sales ++ [mkSale w6DB [wLine61, wLine62] 9] ∧
    (completeSale noFailures w6DB [wLine61, wLine62] 9).1.saleItems =
      w6DB.saleItems ++ mkSaleItems w6DB.nextSaleId [wLine61, wLine62] ∧
    ((mkSaleItems w6DB.nextSaleId [wLine61, wLine62]).map
        SaleItem.total_amount).sum =
      (mkSale w6DB [wLine61, wLine62] 9).total_amount) := by
  have hwf : ∀ item ∈ [wLine61, wLine62], wellFormedLine item := by
    intro item h
    rcases List.mem_cons.mp h with rfl | h2
    · constructor <;> norm_num [wLine61, wProd61]
    · rcases List.mem_cons.mp h2 with rfl | h3
      · constructor <;> norm_num [wLine62, wProd62]
      · cases h3
  exact ⟨⟨List.cons_ne_nil _ _, rfl, rfl, hwf⟩,
    C6_sale_totals noFailures w6DB [wLine61, wLine62] 9
      (List.cons_ne_nil _ _) rfl rfl hwf⟩



theorem stockWrite_none_of_no_line (fs : FailureSpec) :
    ∀ (cart : List CartItem) (pid : ℕ),
      (∀ item ∈ cart, item.product.id ≠ pid) → stockWrite fs cart pid = none
  | [], _, _ => rfl
  | item :: rest, pid, h => by
    have hr := stockWrite_none_of_no_line fs rest pid
      (fun it hit => h it (List.mem_cons_of_mem _ hit))
    have hh : ¬ (item.product.id == pid) = true := by
      simp only [beq_iff_eq]
      exact h item (List.mem_cons_self _ _)
    simp [stockWrite, hr, hh]

theorem stockWrite_unique_line (fs : FailureSpec) :
    ∀ (cart : List CartItem) (pid : ℕ) (it0 : CartItem),
      (cart.map (fun item => item.product.id)).Nodup →
      it0 ∈ cart → it0.product.id = pid →
      fs.stockUpdateFails pid = false →
      stockWrite fs cart pid =
        some (it0.product.stock_quantity - it0.quantity)
  | [], _, _, _, hmem, _, _ => absurd hmem (List.not_mem_nil _)
  | item :: rest, pid, it0, hnodup, hmem, hpid, hfs => by
    rcases List.mem_cons.mp hmem with rfl | hmem2
    · have hno : ∀ it ∈ rest, it.product.id ≠ pid := by
        intro it hit hcon
        have : it0.product.id ∈ rest.map (fun i => i.product.id) := by
          rw [hpid, ← hcon]
          exact List.mem_map_of_mem _ hit
        exact (List.nodup_cons.mp hnodup).1 this
      have hr := stockWrite_none_of_no_line fs rest pid hno
      simp [stockWrite, hr, hpid, hfs]
    · have hr := stockWrite_unique_line fs rest pid it0
        (List.nodup_cons.mp hnodup).2 hmem2 hpid hfs
      simp [stockWrite, hr]

theorem batchDec_zero_of_no_line (fs : FailureSpec) (cart : List CartItem)
    (bid : ℕ) (h : ∀ item ∈ cart, item.batch_id ≠ some bid) :
    batchDec fs cart bid = 0 := by
  apply List.sum_eq_zero
  intro x hx
  rcases List.mem_map.mp hx with ⟨it, hit, rfl⟩
  have hb : ¬ (it.batch_id == some bid && !(fs.batchUpdateFails bid)) = true := by
    simp only [Bool.and_eq_true, beq_iff_eq]
    rintro ⟨h1, _⟩
    exact h it hit h1
  rw [if_neg hb]

theorem batchDec_unique_line (fs : FailureSpec) :
    ∀ (cart : List CartItem) (bid : ℕ) (it0 : CartItem),
      (cart.map (fun item => item.product.id)).Nodup →
      it0 ∈ cart → it0.batch_id = some bid →
      (∀ it ∈ cart, it.batch_id = some bid → it = it0) →
      fs.batchUpdateFails bid = false →
      batchDec fs cart bid = it0.quantity
  | [], _, _, _, hmem, _, _, _ => absurd hmem (List.not_mem_nil _)
  | item :: rest, bid, it0, hnodup, hmem, hbid, huniq, hfail => by
    rcases List.mem_cons.mp hmem with rfl | hmem2
    · have hno : ∀ it ∈ rest, it.batch_id ≠ some bid := by
        intro it hit hcon
        have heq := huniq it (List.mem_cons_of_mem _ hit) hcon
        have : it0.product.id ∈ rest.map (fun i => i.product.id) :=
          heq ▸ List.mem_map_of_mem _ hit
        exact (List.nodup_cons.mp hnodup).1 this
      have hr := batchDec_zero_of_no_line fs rest bid hno
      have hcond : (it0.batch_id == some bid && !(fs.batchUpdateFails bid)) = true := by
        simp [hbid, hfail]
      rw [batchDec_cons, hr, if_pos hcond, add_zero]
    · have hr := batchDec_unique_line fs rest bid it0
        (List.nodup_cons.mp hnodup).2 hmem2 hbid
        (fun it hit hbit => huniq it (List.mem_cons_of_mem _ hit) hbit) hfail
      have hcond : ¬ (item.batch_id == some bid && !(fs.batchUpdateFails bid)) = true := by
        simp only [Bool.and_eq_true, beq_iff_eq]
        rintro ⟨h1, _⟩
        have heq := huniq item (List.mem_cons_self _ _) h1
        have : item.product.id ∈ rest.map (fun i => i.product.id) :=
          heq ▸ List.mem_map_of_mem _ hmem2
        exact (List.nodup_cons.mp hnodup).1 this
      rw [batchDec_cons, if_neg hcond, hr, zero_add]

theorem sum_map_ite_id (q : ℤ) :
    ∀ (pB : List Batch) (bid0 : ℕ), (pB.map Batch.id).Nodup →
      (∃ b ∈ pB, b.id = bid0) →
      (pB.map (fun b => if b.id = bid0 then q else 0)).sum = q
  | [], _, _, hex => absurd hex (by simp)
  | b :: rest, bid0, hnodup, hex => by
    by_cases hb : b.id = bid0
    · have hzero : (rest.map (fun x => if x.id = bid0 then q else 0)).sum = 0 := by
        apply List.sum_eq_zero
        intro x hx
        rcases List.mem_map.mp hx with ⟨y, hy, rfl⟩
        have hne : y.id ≠ bid0 := by
          intro hcon
          have : b.id ∈ rest.map Batch.id := by
            rw [hb, ← hcon]
            exact List.mem_map_of_mem _ hy
          exact (List.nodup_cons.mp hnodup).1 this
        rw [if_neg hne]
      simp [hb, hzero]
    · have hex2 : ∃ x ∈ rest, x.id = bid0 := by
        rcases hex with ⟨x, hx, hxid⟩
        rcases List.mem_cons.mp hx with rfl | hx2
        · exact absurd hxid hb
        · exact ⟨x, hx2, hxid⟩
      have hr := sum_map_ite_id q rest bid0 (List.nodup_cons.mp hnodup).2 hex2
      simp [hb, hr]

theorem sum_map_sub_z (l : List Batch) (f g : Batch → ℤ) :
    (l.map (fun b => f b - g b)).sum = (l.map f).sum - (l.map g).sum := by
  induction l with
  | nil => simp
  | cons b rest ih =>
    simp only [List.map_cons, List.sum_cons, ih]
    ring



def snapProduct : Product :=
  { id := 1, sku := "SKU1", name := "Amoxicillin", selling_price := 10,
    tax_rate := 0, stock_quantity := 10, min_batch_stock_level := none,
    is_active := true }

def snapBatchA : Batch :=
  { id := 1, product_id := 1, batch_number := "BA", expiry_date := 100,
    quantity := 5, remaining_quantity := 5, purchase_price := 1,
    is_active := true }

def snapBatchB : Batch :=
  { id := 2, product_id := 1, batch_number := "BB", expiry_date := 200,
    quantity := 5, remaining_quantity := 5, purchase_price := 1,
    is_active := true }

def snapCart : List CartItem :=
  [{ product := snapProduct, quantity := 1, itemTotal := 10, itemTax := 0,
     batch_id := some 1, batch_number := some "BA" },
   { product := snapProduct, quantity := 1, itemTotal := 10, itemTax := 0,
     batch_id := some 2, batch_number := some "BB" }]

def snapDB : DB :=
  { products := [snapProduct], batches := [snapBatchA, snapBatchB],
    sales := [], saleItems := [], nextSaleId := 0 }

instance (db : DB) (productId : ℕ) : Decidable (stockBatchInvariant db productId) :=
  inferInstanceAs (Decidable (∀ p ∈ db.products, p.id = productId →
    p.stock_quantity = activeBatchSum db productId))

/-- Claim C2, counterexample: the invariant `stock_quantity = Σ
remaining_quantity` holds before the sale (10 = 5 + 5), the cart sells one
unit each from the product's two batches, the sale succeeds — yet afterwards
the product's `stock_quantity` is 9 while the batch sum is 8: each line's
product update wrote `snapshot − quantity` from the same stale snapshot, so
the second line overwrote the first instead of accumulating. -/
theorem C2_counterexample :
    stockBatchInvariant snapDB 1 ∧
    (completeSale noFailures snapDB snapCart 7).2 =
      SaleResult.success (mkSale snapDB snapCart 7) ∧
    ((completeSale noFailures snapDB snapCart 7).1.products.map
      Product.stock_quantity) = [9] ∧
    activeBatchSum (completeSale noFailures snapDB snapCart 7).1 1 = 8 ∧
    ¬ stockBatchInvariant (completeSale noFailures snapDB snapCart 7).1 1 :=
  ⟨by decide, rfl, by decide, by decide, by decide⟩

/-- Claim C2 (amended): the invariant `stock_quantity = Σ active batches'
remaining_quantity` is preserved by a failure-free `completeSale` only for
carts in which every product occupies at most one line: given a store with
distinct batch ids, a cart with pairwise-distinct product ids whose every
line references a stored active batch of its own product and carries an
up-to-date stock snapshot, a product satisfying the invariant before the
sale satisfies it afterwards. (The counterexample shows it fails when one
product appears on two lines via different batches.) -/
theorem C2_amended_invariant_single_line (db : DB) (cart : List CartItem)
    (token : ℕ) (productId : ℕ) (hcart : cart ≠ [])
    (hbnodup : (db.batches.map Batch.id).Nodup)
    (hpnodup : (cart.map (fun item => item.product.id)).Nodup)
    (hlines : ∀ item ∈ cart, ∃ b ∈ db.batches, item.batch_id = some b.id ∧
        b.product_id = item.product.id ∧ b.is_active = true)
    (hsnap : ∀ item ∈ cart, ∀ p ∈ db.products, p.id = item.product.id →
        item.product.stock_quantity = p.stock_quantity)
    (hinv : stockBatchInvariant db productId) :
    (completeSale noFailures db cart token).2 =
      SaleResult.success (mkSale db cart token) ∧
    stockBatchInvariant (completeSale noFailures db cart token).1 productId := by
  have hs := completeSale_success_eq noFailures db cart token hcart rfl rfl
  have hprod : (completeSale noFailures db cart token).1.products =
      db.products.map (fun p =>
        match stockWrite noFailures cart p.id with
        | some v => { p with stock_quantity := v }
        | none => p) := by
    rw [hs]
    exact foldl_applyLine_products noFailures cart _
  have hbat : (completeSale noFailures db cart token).1.batches =
      db.batches.map (fun b =>
        { b with remaining_quantity :=
            b.remaining_quantity - batchDec noFailures cart b.id }) := by
    rw [hs]
    exact foldl_applyLine_batches noFailures cart _ hbnodup
  set pB := db.batches.filter (fun b => b.product_id == productId && b.is_active) with hpB
  have hfilter : (completeSale noFailures db cart token).1.batches.filter
      (fun b => b.product_id == productId && b.is_active) =
      pB.map (fun b =>
        { b with remaining_quantity :=
            b.remaining_quantity - batchDec noFailures cart b.id }) := by
    rw [hbat, List.filter_map]
    rfl
  have hsum' : activeBatchSum (completeSale noFailures db cart token).1 productId =
      (pB.map Batch.remaining_quantity).sum -
        (pB.map (fun b => batchDec noFailures cart b.id)).sum := by
    rw [activeBatchSum, hfilter, List.map_map]
    exact sum_map_sub_z pB Batch.remaining_quantity (fun b => batchDec noFailures cart b.id)
  have hbase : activeBatchSum db productId = (pB.map Batch.remaining_quantity).sum := rfl
  refine ⟨by rw [hs], ?_⟩
  intro p' hp' hidp'
  rw [hprod] at hp'
  rcases List.mem_map.mp hp' with ⟨p, hp, rfl⟩
  have hid_eq : (match stockWrite noFailures cart p.id with
      | some v => { p with stock_quantity := v }
      | none => p).id = p.id := by
    cases stockWrite noFailures cart p.id <;> rfl
  have hpid : p.id = productId := hid_eq ▸ hidp'
  by_cases hex : ∃ it ∈ cart, it.product.id = productId
  · rcases hex with ⟨it0, hit0, hpid0⟩
    have huniq_pid : ∀ it ∈ cart, it.product.id = productId → it = it0 := by
      intro it hit h
      exact List.inj_on_of_nodup_map hpnodup hit hit0 (by rw [h, hpid0])
    rcases hlines it0 hit0 with ⟨b0, hb0mem, hbid0, hb0pid, hb0act⟩
    have hb0pB : b0 ∈ pB := by
      refine List.mem_filter.mpr ⟨hb0mem, ?_⟩
      simp [hb0pid, hpid0, hb0act]
    have huniq_b : ∀ it ∈ cart, it.batch_id = some b0.id → it = it0 := by
      intro it hit hcon
      rcases hlines it hit with ⟨b', hb'mem, hbid', hpid', _⟩
      have hids : b'.id = b0.id := by
        have := hbid'.symm.trans hcon
        injection this
      have hbb : b' = b0 := List.inj_on_of_nodup_map hbnodup hb'mem hb0mem hids
      apply huniq_pid it hit
      rw [← hpid', hbb, hb0pid, hpid0]
    have hdec0 : batchDec noFailures cart b0.id = it0.quantity :=
      batchDec_unique_line noFailures cart b0.id it0 hpnodup hit0 hbid0 huniq_b rfl
    have hdec_other : ∀ b ∈ pB, b.id ≠ b0.id →
        batchDec noFailures cart b.id = 0 := by
      intro b hbB hne
      apply batchDec_zero_of_no_line
      intro it hit hcon
      rcases hlines it hit with ⟨b', hb'mem, hbid', hpid', _⟩
      have hids : b'.id = b.id := by
        have := hbid'.symm.trans hcon
        injection this
      have hbb : b' = b :=
        List.inj_on_of_nodup_map hbnodup hb'mem (List.mem_of_mem_filter hbB) hids
      have hbpid : b.product_id = productId := by
        have := (List.mem_filter.mp hbB).2
        simp only [Bool.and_eq_true, beq_iff_eq] at this
        exact this.1
      have hitpid : it.product.id = productId := by
        rw [← hpid', hbb, hbpid]
      have := huniq_pid it hit hitpid
      apply hne
      have : it0.batch_id = some b.id := this ▸ hcon
      have := hbid0.symm.trans this
      injection this with h
      exact h.symm
    have hdecsum : (pB.map (fun b => batchDec noFailures cart b.id)).sum =
        it0.quantity := by
      have hcongr : pB.map (fun b => batchDec noFailures cart b.id) =
          pB.map (fun b => if b.id = b0.id then it0.quantity else 0) := by
        apply List.map_congr_left
        intro b hbB
        by_cases h : b.id = b0.id
        · rw [if_pos h, h, hdec0]
        · rw [if_neg h, hdec_other b hbB h]
      rw [hcongr]
      apply sum_map_ite_id
      · exact List.Nodup.sublist
          (List.Sublist.map Batch.id (List.filter_sublist db.batches)) hbnodup
      · exact ⟨b0, hb0pB, rfl⟩
    have hsw : stockWrite noFailures cart productId =
        some (it0.product.stock_quantity - it0.quantity) :=
      stockWrite_unique_line noFailures cart productId it0 hpnodup hit0 hpid0 rfl
    have hpid_it0 : p.id = it0.product.id := by rw [hpid, hpid0]
    have hsnap0 : it0.product.stock_quantity = p.stock_quantity :=
      hsnap it0 hit0 p hp hpid_it0
    have hres : (match stockWrite noFailures cart p.id with
        | some v => { p with stock_quantity := v }
        | none => p).stock_quantity =
        it0.product.stock_quantity - it0.quantity := by
      rw [hpid, hsw]
    rw [hres, hsum', hsnap0, ← hbase, hdecsum, hinv p hp hpid]
  · have hnoline : ∀ it ∈ cart, it.product.id ≠ productId := by
      intro it hit hcon
      exact hex ⟨it, hit, hcon⟩
    have hswn : stockWrite noFailures cart productId = none :=
      stockWrite_none_of_no_line noFailures cart productId hnoline
    have hdecz : (pB.map (fun b => batchDec noFailures cart b.id)).sum = 0 := by
      apply List.sum_eq_zero
      intro x hx
      rcases List.mem_map.mp hx with ⟨b, hbB, rfl⟩
      apply batchDec_zero_of_no_line
      intro it hit hcon
      rcases hlines it hit with ⟨b', hb'mem, hbid', hpid', _⟩
      have hids : b'.id = b.id := by
        have := hbid'.symm.trans hcon
        injection this
      have hbb : b' = b :=
        List.inj_on_of_nodup_map hbnodup hb'mem (List.mem_of_mem_filter hbB) hids
      have hbpid : b.product_id = productId := by
        have := (List.mem_filter.mp hbB).2
        simp only [Bool.and_eq_true, beq_iff_eq] at this
        exact this.1
      exact hnoline it hit (by rw [← hpid', hbb, hbpid])
    have hres : (match stockWrite noFailures cart p.id with
        | some v => { p with stock_quantity := v }
        | none => p).stock_quantity = p.stock_quantity := by
      rw [hpid, hswn]
    rw [hres, hsum', hdecz, ← hbase, sub_zero, hinv p hp hpid]



def w2Product : Product :=
  { id := 1, sku := "SKU1", name := "Ibuprofen", selling_price := 10,
    tax_rate := 0, stock_quantity := 5, min_batch_stock_level := none,
    is_active := true }

def w2Batch : Batch :=
  { id := 1, product_id := 1, batch_number := "BA", expiry_date := 100,
    quantity := 5, remaining_quantity := 5, purchase_price := 1,
    is_active := true }

def w2Cart : List CartItem :=
  [{ product := w2Product, quantity := 2, itemTotal := 20, itemTax := 0,
     batch_id := some 1, batch_number := some "BA" }]

def w2DB : DB :=
  { products := [w2Product], batches := [w2Batch], sales := [],
    saleItems := [], nextSaleId := 0 }

/-- Claim C2 (amended), witness: a single-line cart over a store satisfying
the invariant. -/
theorem C2_amended_witness :
    (w2Cart ≠ [] ∧ (w2DB.batches.map Batch.id).Nodup ∧
     (w2Cart.map (fun item => item.product.id)).Nodup ∧
     (∀ item ∈ w2Cart, ∃ b ∈ w2DB.batches, item.batch_id = some b.id ∧
        b.product_id = item.product.id ∧ b.is_active = true) ∧
     (∀ item ∈ w2Cart, ∀ p ∈ w2DB.products, p.id = item.product.id →
        item.product.stock_quantity = p.stock_quantity) ∧
     stockBatchInvariant w2DB 1) ∧
    ((completeSale noFailures w2DB w2Cart 5).2 =
      SaleResult.success (mkSale w2DB w2Cart 5) ∧
     stockBatchInvariant (completeSale noFailures w2DB w2Cart 5).1 1) :=
  ⟨⟨List.cons_ne_nil _ _, by decide, by decide, by decide, by decide, by decide⟩,
   C2_amended_invariant_single_line w2DB w2Cart 5 1 (List.cons_ne_nil _ _)
     (by decide) (by decide) (by decide) (by decide) (by decide)⟩



theorem mem_loadBatches (db : DB) (pid : ℕ) (b : Batch) :
    b ∈ loadBatches db pid ↔
      b ∈ db.batches ∧ b.product_id = pid ∧ b.is_active = true ∧
        0 < b.remaining_quantity := by
  unfold loadBatches
  rw [(List.mergeSort_perm _ _).mem_iff, List.mem_filter]
  simp [and_assoc]

theorem loadBatches_sorted (db : DB) (pid : ℕ) :
    (loadBatches db pid).Pairwise (fun a b => a.expiry_date ≤ b.expiry_date) := by
  unfold loadBatches
  have htrans : ∀ a b c : Batch, (decide (a.expiry_date ≤ b.expiry_date)) = true →
      (decide (b.expiry_date ≤ c.expiry_date)) = true →
      (decide (a.expiry_date ≤ c.expiry_date)) = true := by
    intro a b c h1 h2
    simp only [decide_eq_true_iff] at *
    omega
  have htotal : ∀ a b : Batch, ((decide (a.expiry_date ≤ b.expiry_date)) ||
      (decide (b.expiry_date ≤ a.expiry_date))) = true := by
    intro a b
    simp only [Bool.or_eq_true, decide_eq_true_iff]
    omega
  have := List.sorted_mergeSort htrans htotal
    (db.batches.filter
      (fun b => b.product_id == pid && b.is_active && decide (0 < b.remaining_quantity)))
  exact this.imp (fun h => by simpa using h)

theorem addToCart_auto_mem (db : DB) (now : ℤ) (mode : Bool) (p : Product)
    (b : Batch)
    (h : addToCart db now mode p = AddToCartResult.autoSelected b) :
    b ∈ (loadBatches db p.id).filter (fun x => decide (now ≤ x.expiryTs)) := by
  unfold addToCart at h
  by_cases hemp : (loadBatches db p.id).isEmpty
  · simp [hemp] at h
  · rw [Bool.not_eq_true] at hemp
    simp only [hemp, Bool.false_eq_true, if_false] at h
    cases hv : (loadBatches db p.id).filter (fun x => decide (now ≤ x.expiryTs)) with
    | nil => rw [hv] at h; simp at h
    | cons hd tl =>
      rw [hv] at h
      cases mode with
      | false => simp at h
      | true =>
        simp only [Bool.not_true, Bool.false_eq_true, if_false,
          AddToCartResult.autoSelected.injEq] at h
        rw [← h]
        exact List.mem_cons_self _ _

theorem addToCart_manual_eq (db : DB) (now : ℤ) (mode : Bool) (p : Product)
    (bs : List Batch)
    (h : addToCart db now mode p = AddToCartResult.manualDialog bs) :
    bs = (loadBatches db p.id).filter (fun x => decide (now ≤ x.expiryTs)) := by
  unfold addToCart at h
  by_cases hemp : (loadBatches db p.id).isEmpty
  · simp [hemp] at h
  · rw [Bool.not_eq_true] at hemp
    simp only [hemp, Bool.false_eq_true, if_false] at h
    cases hv : (loadBatches db p.id).filter (fun x => decide (now ≤ x.expiryTs)) with
    | nil => rw [hv] at h; simp at h
    | cons hd tl =>
      rw [hv] at h
      cases mode with
      | false =>
        simp only [Bool.not_false, if_true, AddToCartResult.manualDialog.injEq] at h
        exact h.symm
      | true =>
        simp at h

/-- Claim C4: whenever a product has at least one eligible batch (stored,
owned by the product, active, in stock, not expired at `now`), Auto mode
deterministically selects a batch that is eligible and whose expiry date is
at most every eligible batch's expiry date — the earliest-expiry batch;
with distinct expiries E1 < E2 < E3 this is the E1 batch. -/
theorem C4_auto_selects_earliest_expiry (db : DB) (now : ℤ) (p : Product)
    (hne : ∃ b, eligibleBatch db now p.id b) :
    ∃ b, addToCart db now true p = AddToCartResult.autoSelected b ∧
      eligibleBatch db now p.id b ∧
      ∀ b', eligibleBatch db now p.id b' → b.expiry_date ≤ b'.expiry_date := by
  rcases hne with ⟨b0, hb0⟩
  have hmem_valid : ∀ b', eligibleBatch db now p.id b' →
      b' ∈ (loadBatches db p.id).filter (fun x => decide (now ≤ x.expiryTs)) := by
    intro b' hb'
    refine List.mem_filter.mpr ⟨?_, by simp [hb'.2.2.2.2]⟩
    exact (mem_loadBatches db p.id b').mpr ⟨hb'.1, hb'.2.1, hb'.2.2.1, hb'.2.2.2.1⟩
  have hmem0 := hmem_valid b0 hb0
  have hempt : (loadBatches db p.id).isEmpty = false := by
    rw [List.isEmpty_eq_false]
    intro hnil
    have := List.mem_of_mem_filter hmem0
    rw [hnil] at this
    exact absurd this (List.not_mem_nil _)
  cases hv : (loadBatches db p.id).filter (fun x => decide (now ≤ x.expiryTs)) with
  | nil =>
    rw [hv] at hmem0
    exact absurd hmem0 (List.not_mem_nil _)
  | cons hd tl =>
    refine ⟨hd, ?_, ?_, ?_⟩
    · unfold addToCart
      simp only [hempt, Bool.false_eq_true, if_false, hv, Bool.not_true]
    · have hmemhd : hd ∈ (loadBatches db p.id).filter
          (fun x => decide (now ≤ x.expiryTs)) := by
        rw [hv]; exact List.mem_cons_self _ _
      have h1 := List.mem_filter.mp hmemhd
      have h2 := (mem_loadBatches db p.id hd).mp h1.1
      refine ⟨h2.1, h2.2.1, h2.2.2.1, h2.2.2.2, ?_⟩
      have := h1.2
      rwa [decide_eq_true_iff] at this
    · intro b' hb'
      have hmem' := hmem_valid b' hb'
      rw [hv] at hmem'
      rcases List.mem_cons.mp hmem' with rfl | hmem'
      · exact le_refl _
      · have hsorted := List.Pairwise.filter
          (fun x => decide (now ≤ x.expiryTs)) (loadBatches_sorted db p.id)
        rw [hv] at hsorted
        exact (List.pairwise_cons.mp hsorted).1 b' hmem'

def wFifoProduct : Product :=
  { id := 1, sku := "SKU1", name := "Cough Syrup", selling_price := 10,
    tax_rate := 0, stock_quantity := 15, min_batch_stock_level := none,
    is_active := true }

def wFifoB1 : Batch :=
  { id := 1, product_id := 1, batch_number := "E1", expiry_date := 10,
    quantity := 5, remaining_quantity := 5, purchase_price := 1,
    is_active := true }

def wFifoB2 : Batch :=
  { id := 2, product_id := 1, batch_number := "E2", expiry_date := 20,
    quantity := 5, remaining_quantity := 5, purchase_price := 1,
    is_active := true }

def wFifoB3 : Batch :=
  { id := 3, product_id := 1, batch_number := "E3", expiry_date := 30,
    quantity := 5, remaining_quantity := 5, purchase_price := 1,
    is_active := true }

def wFifoDB : DB :=
  { products := [wFifoProduct], batches := [wFifoB3, wFifoB1, wFifoB2],
    sales := [], saleItems := [], nextSaleId := 0 }

/-- Claim C4, witness: three non-expired in-stock batches with expiries
10 < 20 < 30, listed out of order in the store. -/
theorem C4_witness :
    (∃ b, eligibleBatch wFifoDB 0 wFifoProduct.id b) ∧
    (∃ b, addToCart wFifoDB 0 true wFifoProduct =
        AddToCartResult.autoSelected b ∧
      eligibleBatch wFifoDB 0 wFifoProduct.id b ∧
      ∀ b', eligibleBatch wFifoDB 0 wFifoProduct.id b' →
        b.expiry_date ≤ b'.expiry_date) :=
  have hne : ∃ b, eligibleBatch wFifoDB 0 wFifoProduct.id b :=
    ⟨wFifoB1, List.mem_cons_of_mem _ (List.mem_cons_self _ _), rfl, rfl,
      by decide, by decide⟩
  ⟨hne, C4_auto_selects_earliest_expiry wFifoDB 0 wFifoProduct hne⟩

theorem expiry_day_gt_of_kept (b : Batch) (today t : ℤ) (ht : 0 < t)
    (h : (decide (today * dayMs + t ≤ b.expiryTs)) = true) :
    today < b.expiry_date := by
  rw [decide_eq_true_iff] at h
  unfold Batch.expiryTs dayMs at h
  omega

/-- Claim C5: at any instant strictly after midnight of day `today`, a batch
whose `expiry_date` is strictly before `today` is never listed for Manual
selection and never Auto-selected, and a batch whose `expiry_date` equals
`today` is likewise excluded (day-0 boundary): every listed or selected
batch has `expiry_date` strictly greater than `today`. -/
theorem C5_expired_and_day0_excluded (db : DB) (mode : Bool) (p : Product)
    (today t : ℤ) (ht : 0 < t) :
    (∀ bs, addToCart db (today * dayMs + t) mode p =
        AddToCartResult.manualDialog bs →
      ∀ b ∈ bs, today < b.expiry_date) ∧
    (∀ b, addToCart db (today * dayMs + t) mode p =
        AddToCartResult.autoSelected b →
      today < b.expiry_date) := by
  constructor
  · intro bs hbs b hb
    rw [addToCart_manual_eq db _ mode p bs hbs] at hb
    exact expiry_day_gt_of_kept b today t ht (List.mem_filter.mp hb).2
  · intro b hb
    have := addToCart_auto_mem db _ mode p b hb
    exact expiry_day_gt_of_kept b today t ht (List.mem_filter.mp this).2

def wExpProduct : Product :=
  { id := 1, sku := "SKU1", name := "Insulin", selling_price := 10,
    tax_rate := 0, stock_quantity := 15, min_batch_stock_level := none,
    is_active := true }

def wExpDB : DB :=
  { products := [wExpProduct],
    batches :=
      [{ id := 1, product_id := 1, batch_number := "OLD", expiry_date := 99,
         quantity := 5, remaining_quantity := 5, purchase_price := 1,
         is_active := true },
       { id := 2, product_id := 1, batch_number := "DAY0", expiry_date := 100,
         quantity := 5, remaining_quantity := 5, purchase_price := 1,
         is_active := true },
       { id := 3, product_id := 1, batch_number := "OK", expiry_date := 101,
         quantity := 5, remaining_quantity := 5, purchase_price := 1,
         is_active := true }],
    sales := [], saleItems := [], nextSaleId := 0 }

/-- Claim C5, witness: a store holding an expired batch, a batch expiring
exactly today (day 100) and a later batch, at one millisecond past
midnight. -/
theorem C5_witness :
    (0 : ℤ) < 1 ∧
    ((∀ bs, addToCart wExpDB (100 * dayMs + 1) true wExpProduct =
        AddToCartResult.manualDialog bs →
      ∀ b ∈ bs, 100 < b.expiry_date) ∧
    (∀ b, addToCart wExpDB (100 * dayMs + 1) true wExpProduct =
        AddToCartResult.autoSelected b →
      100 < b.expiry_date)) :=
  ⟨by decide,
   C5_expired_and_day0_excluded wExpDB true wExpProduct 100 1 (by decide)⟩



def day0Product : Product :=
  { id := 1, sku := "SKU1", name := "Vitamin D", selling_price := 10,
    tax_rate := 0, stock_quantity := 5, min_batch_stock_level := none,
    is_active := true }

def day0Batch : Batch :=
  { id := 1, product_id := 1, batch_number := "B1", expiry_date := 100,
    quantity := 5, remaining_quantity := 5, purchase_price := 1,
    is_active := true }

def day0DB : DB :=
  { products := [day0Product], batches := [day0Batch], sales := [],
    saleItems := [], nextSaleId := 0 }

/-- Claim C7, counterexample: one active batch expiring exactly today
(day 100, within the 30-day horizon), viewed one millisecond past midnight.
`loadReports` counts it in NEITHER stats bucket — `expiringBatches` requires
`differenceInDays > 0` and the truncated difference is 0, `expiredBatches`
requires it negative — so it is not counted as `expiringSoon` and the two
buckets do not cover the horizon; `getBatchStatus` meanwhile labels the same
batch `Expiring Soon`, exposing the boundary mismatch. -/
theorem C7_counterexample :
    day0Batch.is_active = true ∧
    day0Batch.expiry_date ≤ 100 + 30 ∧
    (loadReports day0DB (100 * dayMs + 1)).totalBatches = 1 ∧
    (loadReports day0DB (100 * dayMs + 1)).expiringBatches = 0 ∧
    (loadReports day0DB (100 * dayMs + 1)).expiredBatches = 0 ∧
    getBatchStatus day0Batch.expiry_date (100 * dayMs + 1) =
      BatchStatus.expiringSoon :=
  ⟨rfl, by decide, by decide, by decide, by decide, by decide⟩

/-- Claim C7 (amended): in `loadReports` the buckets are
`expired` (`differenceInDays < 0`) and `expiringSoon`
(`0 < differenceInDays ≤ 30`); they are always disjoint, but they do not
cover the horizon: a batch whose expiry day equals today (truncated
difference 0) is counted in neither, while `getBatchStatus` labels that same
batch `Expiring Soon`. -/
theorem C7_amended_day0_in_neither_bucket (b : Batch) (now today t : ℤ)
    (hnow : now = today * dayMs + t) (ht0 : 0 < t) (htD : t < dayMs) :
    (¬ (isExpiringSoonStat b now = true ∧ isExpiredStat b now = true)) ∧
    (b.expiry_date = today →
      daysUntilExpiry b.expiry_date now = 0 ∧
      isExpiringSoonStat b now = false ∧
      isExpiredStat b now = false ∧
      getBatchStatus b.expiry_date now = BatchStatus.expiringSoon) := by
  constructor
  · rintro ⟨h1, h2⟩
    simp only [isExpiringSoonStat, isExpiredStat, Bool.and_eq_true,
      decide_eq_true_iff] at h1 h2
    omega
  · intro hexp
    have hd : daysUntilExpiry b.expiry_date now = 0 := by
      rw [hexp, hnow]
      unfold daysUntilExpiry differenceInDays
      have harg : today * dayMs - (today * dayMs + t) = -t := by ring
      rw [harg, Int.neg_tdiv, Int.tdiv_eq_zero_of_lt (le_of_lt ht0) htD, neg_zero]
    refine ⟨hd, ?_, ?_, ?_⟩
    · simp [isExpiringSoonStat, hd]
    · simp [isExpiredStat, hd]
    · simp [getBatchStatus, hd]

/-- Claim C7 (amended), witness: the day-0 batch at one millisecond past
midnight of day 100. -/
theorem C7_witness :
    ((100 * dayMs + 1 : ℤ) = 100 * dayMs + 1 ∧ (0 : ℤ) < 1 ∧ (1 : ℤ) < dayMs) ∧
    ((¬ (isExpiringSoonStat day0Batch (100 * dayMs + 1) = true ∧
        isExpiredStat day0Batch (100 * dayMs + 1) = true)) ∧
    (day0Batch.expiry_date = 100 →
      daysUntilExpiry day0Batch.expiry_date (100 * dayMs + 1) = 0 ∧
      isExpiringSoonStat day0Batch (100 * dayMs + 1) = false ∧
      isExpiredStat day0Batch (100 * dayMs + 1) = false ∧
      getBatchStatus day0Batch.expiry_date (100 * dayMs + 1) =
        BatchStatus.expiringSoon)) :=
  ⟨⟨rfl, by decide, by decide⟩,
   C7_amended_day0_in_neither_bucket day0Batch (100 * dayMs + 1) 100 1 rfl
     (by decide) (by decide)⟩



def zeroThresholdProduct : Product :=
  { id := 1, sku := "SKU1", name := "Bandage", selling_price := 10,
    tax_rate := 0, stock_quantity := 3, min_batch_stock_level := some 0,
    is_active := true }

def zeroThresholdBatch : Batch :=
  { id := 1, product_id := 1, batch_number := "B1", expiry_date := 100,
    quantity := 3, remaining_quantity := 3, purchase_price := 1,
    is_active := true }

def zeroThresholdDB : DB :=
  { products := [zeroThresholdProduct], batches := [zeroThresholdBatch],
    sales := [], saleItems := [], nextSaleId := 0 }

/-- Claim C9, counterexample: a product whose `min_batch_stock_level` is set
to 0 — under the claim its effective threshold is 0, so its batch with
`remaining_quantity = 3` must not appear. But JavaScript `x || 5` treats the
set value 0 as falsy, so the code uses threshold 5 and the batch with
remaining 3 > 0 DOES appear in the low-stock view. -/
theorem C9_counterexample :
    zeroThresholdProduct.min_batch_stock_level = some 0 ∧
    specEffectiveThreshold zeroThresholdProduct.min_batch_stock_level = 0 ∧
    ((loadLowStockBatches zeroThresholdDB).map LowStockRow.batch_id = [1]) ∧
    ((loadLowStockBatches zeroThresholdDB).map
      LowStockRow.remaining_quantity = [3]) ∧
    specEffectiveThreshold zeroThresholdProduct.min_batch_stock_level < 3 :=
  ⟨rfl, rfl, by decide, by decide, by decide⟩

/-- Claim C9 (amended): a stored batch contributes a row to the low-stock
view exactly when it is active, has `remaining_quantity > 0`, its product
row is found, and `remaining_quantity` is at most the effective threshold —
where the effective threshold is 5 whenever `min_batch_stock_level` is unset
(null) OR set to 0 (both are falsy under the JavaScript `|| 5` default), and
the column value otherwise. In particular no batch with zero remaining
quantity ever appears. -/
theorem C9_low_stock_characterization (db : DB)
    (hnodup : (db.batches.map Batch.id).Nodup)
    (b : Batch) (hb : b ∈ db.batches) :
    ((∃ r ∈ loadLowStockBatches db, r.batch_id = b.id) ↔
      (b.is_active = true ∧ 0 < b.remaining_quantity ∧
       ∃ p, db.products.find? (fun q => q.id == b.product_id) = some p ∧
         b.remaining_quantity ≤ jsOrDefault p.min_batch_stock_level 5)) ∧
    (∀ r ∈ loadLowStockBatches db, 0 < r.remaining_quantity ∧
      r.remaining_quantity ≤ r.min_batch_stock_level) := by
  constructor
  · constructor
    · rintro ⟨r, hr, hrid⟩
      rcases List.mem_filterMap.mp hr with ⟨a, ha, hfa⟩
      have hmem := List.mem_filter.mp ha
      have hprops := hmem.2
      simp only [Bool.and_eq_true, decide_eq_true_iff] at hprops
      cases hfind : db.products.find? (fun q => q.id == a.product_id) with
      | none => rw [hfind] at hfa; exact absurd hfa (by simp)
      | some p =>
        rw [hfind] at hfa
        dsimp only at hfa
        by_cases hle : a.remaining_quantity ≤ jsOrDefault p.min_batch_stock_level 5
        · rw [if_pos hle] at hfa
          injection hfa with hfa2
          have hrbid : r.batch_id = a.id := by rw [← hfa2]
          have haid : a.id = b.id := by rw [← hrbid, hrid]
          have hab : a = b :=
            List.inj_on_of_nodup_map hnodup (List.mem_of_mem_filter ha) hb haid
          subst hab
          exact ⟨hprops.1, hprops.2, p, hfind, hle⟩
        · rw [if_neg hle] at hfa
          exact absurd hfa (by simp)
    · rintro ⟨hact, hrem, p, hfind, hle⟩
      refine ⟨{ batch_id := b.id, batch_number := b.batch_number,
                product_id := p.id, product_name := p.name,
                remaining_quantity := b.remaining_quantity,
                min_batch_stock_level := jsOrDefault p.min_batch_stock_level 5 },
              ?_, rfl⟩
      apply List.mem_filterMap.mpr
      refine ⟨b, List.mem_filter.mpr ⟨hb, ?_⟩, ?_⟩
      · simp [hact, hrem]
      · rw [hfind]
        dsimp only
        rw [if_pos hle]
  · intro r hr
    rcases List.mem_filterMap.mp hr with ⟨a, ha, hfa⟩
    have hmem := List.mem_filter.mp ha
    have hprops := hmem.2
    simp only [Bool.and_eq_true, decide_eq_true_iff] at hprops
    cases hfind : db.products.find? (fun q => q.id == a.product_id) with
    | none => rw [hfind] at hfa; exact absurd hfa (by simp)
    | some p =>
      rw [hfind] at hfa
      dsimp only at hfa
      by_cases hle : a.remaining_quantity ≤ jsOrDefault p.min_batch_stock_level 5
      · rw [if_pos hle] at hfa
        injection hfa with hfa2
        rw [← hfa2]
        exact ⟨hprops.2, hle⟩
      · rw [if_neg hle] at hfa
        exact absurd hfa (by simp)

def nullThresholdProduct : Product :=
  { id := 1, sku := "SKU1", name := "Mask", selling_price := 10,
    tax_rate := 0, stock_quantity := 4, min_batch_stock_level := none,
    is_active := true }

def nullThresholdBatch : Batch :=
  { id := 1, product_id := 1, batch_number := "B1", expiry_date := 100,
    quantity := 9, remaining_quantity := 4, purchase_price := 1,
    is_active := true }

def nullThresholdDB : DB :=
  { products := [nullThresholdProduct], batches := [nullThresholdBatch],
    sales := [], saleItems := [], nextSaleId := 0 }

/-- Claim C9 (amended), witness: a product with `min_batch_stock_level`
unset, whose batch with remaining 4 ≤ default threshold 5 is low-stock. -/
theorem C9_witness :
    ((nullThresholdDB.batches.map Batch.id).Nodup ∧
      nullThresholdBatch ∈ nullThresholdDB.batches) ∧
    (((∃ r ∈ loadLowStockBatches nullThresholdDB,
        r.batch_id = nullThresholdBatch.id) ↔
      (nullThresholdBatch.is_active = true ∧
       0 < nullThresholdBatch.remaining_quantity ∧
       ∃ p, nullThresholdDB.products.find?
          (fun q => q.id == nullThresholdBatch.product_id) = some p ∧
         nullThresholdBatch.remaining_quantity ≤
           jsOrDefault p.min_batch_stock_level 5)) ∧
    (∀ r ∈ loadLowStockBatches nullThresholdDB, 0 < r.remaining_quantity ∧
      r.remaining_quantity ≤ r.min_batch_stock_level)) :=
  ⟨⟨by decide, List.mem_cons_self _ _⟩,
   C9_low_stock_characterization nullThresholdDB (by decide)
     nullThresholdBatch (List.mem_cons_self _ _)⟩

end RetailSync
